import Mathlib

/-!
Verification of the pod-dashboard core: a shallow embedding of
`src/resources/pod.rs`, `src/widget.rs` and `src/widget/pod.rs`.

Conventions of the embedding:
* Rust `String` is Lean `String`; byte indices coincide with character
  indices (the ASCII fragment, which is all the dashboard manipulates).
* `chrono::DateTime<Utc>` is an `Int` (a timestamp); `Utc::now()` becomes an
  explicit `now : Int` parameter of any function that reads the clock.
* `u16` arithmetic is `Nat` with explicit saturation at `65535` and an
  explicit `% 65536` where the code casts `usize → u16`.
* Fallible parsing returns `Option`.
-/

/-- Three-way comparison of character lists, the embedding of Rust's
lexicographic `Ord` on strings (byte-wise; ASCII fragment). -/
def strCmp : List Char → List Char → Ordering
  | [], [] => .eq
  | [], _ :: _ => .lt
  | _ :: _, [] => .gt
  | a :: as, b :: bs =>
    if a < b then .lt else if b < a then .gt else strCmp as bs

/-! ## Data model

The fields of the `k8s_openapi` pod types that the dashboard reads.
Fields the three source files never touch are omitted. -/

structure ContainerStateWaiting where
  reason : Option String
deriving DecidableEq, Repr

structure ContainerStateTerminated where
  reason : Option String
  finished_at : Option Int
deriving DecidableEq, Repr

structure ContainerState where
  waiting : Option ContainerStateWaiting
  terminated : Option ContainerStateTerminated
deriving DecidableEq, Repr

structure ContainerStatus where
  name : String
  ready : Bool
  restart_count : Int
  state : Option ContainerState
  last_state : Option ContainerState
deriving DecidableEq, Repr

structure PodStatus where
  phase : Option String
  container_statuses : Option (List ContainerStatus)
  pod_ip : Option String
deriving DecidableEq, Repr

structure ObjectMeta where
  name : Option String
  namespace_ : Option String
deriving DecidableEq, Repr

structure Pod where
  metadata : ObjectMeta
  status : Option PodStatus
deriving DecidableEq, Repr

/-- `kube::ResourceExt::name_any`: the object's name, or `""` when absent. -/
def Pod.name_any (p : Pod) : String :=
  p.metadata.name.getD ""

/-- `kube::ResourceExt::namespace`. -/
def Pod.namespace_ (p : Pod) : Option String :=
  p.metadata.namespace_

/-! ## Phase (src/resources/pod.rs) -/

inductive Phase where
  | Pending
  | Running
  | Succeeded
  | Unknown (reason : String)
deriving DecidableEq, Repr

/-- `impl From<&Option<String>> for Phase` (src/resources/pod.rs). -/
def Phase.fromOpt : Option String → Phase
  | some s =>
    if s = "Pending" then .Pending
    else if s = "Running" then .Running
    else if s = "Succeeded" then .Succeeded
    else .Unknown s
  | none => .Unknown "Unknown"

/-! ## PodExt (src/resources/pod.rs) -/

/-- `PodExt::ready`. -/
def Pod.ready (p : Pod) : String :=
  match p.status with
  | none => "0/0"
  | some status =>
    match status.container_statuses with
    | none => "0/0"
    | some containers =>
      let ready : Int := containers.foldl (fun a c => a + (if c.ready then 1 else 0)) 0
      let total := containers.length
      s!"{ready}/{total}"

/-- `chrono::DateTime::<Utc>::MIN_UTC`, as a timestamp: the sentinel the
restart fold starts from.  Every real timestamp is strictly later. -/
def minUtc : Int := -8334632851200

/-- Modelled from the spec: the age formatter (`resources/age.rs`, absent from
`src/`) renders a time delta as human-readable text — "age since ...".  The
exact text is irrelevant to every claim; the model renders seconds. -/
def toAge (d : Int) : String := s!"{d}s"

/-- `PodExt::restarts` (src/resources/pod.rs).  `now` is `Utc::now()`. -/
def Pod.restarts (now : Int) (p : Pod) : String :=
  match p.status with
  | none => "0"
  | some status =>
    match status.container_statuses with
    | none => "0"
    | some containers =>
      let total : Int := containers.foldl (fun a c => a + c.restart_count) 0
      let recent : Int := containers.foldl (fun a c =>
        match c.last_state with
        | none => a
        | some last_state =>
          match last_state.terminated with
          | none => a
          | some terminated =>
            match terminated.finished_at with
            | none => a
            | some finished => max a finished) minUtc
      if recent = minUtc then toString total
      else s!"{total} ({toAge (now - recent)})"

/-- The filter in `PodExt::status`:
`matches!(c, ContainerStatus { state: Some(ContainerState { waiting: Some(_), .. }), .. })`. -/
def waitingFilter (c : ContainerStatus) : Bool :=
  match c.state with
  | some s => s.waiting.isSome
  | none => false

/-- The map in `PodExt::status`: the or-pattern extracting a container's
waiting reason, else its terminated reason, else `"unknown"`. -/
def containerReason (c : ContainerStatus) : String :=
  match c.state with
  | some s =>
    match s.waiting with
    | some w =>
      match w.reason with
      | some x => x
      | none =>
        match s.terminated with
        | some t =>
          match t.reason with
          | some x => x
          | none => "unknown"
        | none => "unknown"
    | none =>
      match s.terminated with
      | some t =>
        match t.reason with
        | some x => x
        | none => "unknown"
      | none => "unknown"
  | none => "unknown"

/-- `PodExt::status` (src/resources/pod.rs): the derived `Phase`. -/
def Pod.statusPhase (p : Pod) : Phase :=
  match p.status with
  | none => Phase.fromOpt (some "")
  | some status =>
    match status.container_statuses with
    | none => Phase.fromOpt status.phase
    | some containers =>
      let statuses := (containers.filter waitingFilter).map containerReason
      if statuses.isEmpty then Phase.fromOpt status.phase
      else Phase.fromOpt (some (String.intercalate ", " statuses))

/-! ## IP (src/resources/pod.rs) -/

structure IpAddr where
  a : Nat
  b : Nat
  c : Nat
  d : Nat
deriving DecidableEq, Repr

/-- One decimal octet of a dotted-quad address: non-empty, digits only, no
leading zero, value at most 255. -/
def parseOctet (s : List Char) : Option Nat :=
  if s.isEmpty then none
  else if !s.all Char.isDigit then none
  else if s.length > 1 && s.head? = some '0' then none
  else
    let v := s.foldl (fun a c => a * 10 + (c.toNat - 48)) 0
    if v ≤ 255 then some v else none

/-- Split a character list on `'.'`, the separator semantics of
`str::split('.')`. -/
def splitDots : List Char → List (List Char)
  | [] => [[]]
  | c :: cs =>
    let r := splitDots cs
    if c = '.' then [] :: r
    else
      match r with
      | [] => [[c]]
      | h :: t => (c :: h) :: t

/-- Modelled from the spec: `IpAddr::from_str` is the standard library's
address parser (an external collaborator); the model accepts dotted-quad
IPv4 text and rejects everything else. -/
def parseIp (s : String) : Option IpAddr :=
  match (splitDots s.data).map parseOctet with
  | [some a, some b, some c, some d] => some ⟨a, b, c, d⟩
  | _ => none

/-- `PodExt::ip` (src/resources/pod.rs). -/
def Pod.ip (p : Pod) : Option IpAddr :=
  match p.status with
  | none => none
  | some status =>
    match status.pod_ip with
    | none => none
    | some pod_ip => parseIp pod_ip

/-! ## Filter and Compare impls (src/resources/pod.rs) -/

/-- Rust `str::contains`: substring test (byte-wise; ASCII fragment). -/
def strContains (s pat : String) : Bool :=
  (List.range (s.data.length + 1)).any (fun i => pat.data.isPrefixOf (s.data.drop i))

/-- `impl Filter for Pod`: `self.name_any().contains(filter)`. -/
def Pod.matches (p : Pod) (filter : String) : Bool :=
  strContains p.name_any filter

/-- `impl Compare for Arc<Pod>`: namespace (absent treated as `""`) first,
name only on equal namespaces. -/
def Pod.cmp (p other : Pod) : Ordering :=
  let lhs := strCmp (p.namespace_.getD "").data (other.namespace_.getD "").data
  if lhs ≠ .eq then lhs
  else strCmp p.name_any.data other.name_any.data

/-! ## Events and dispatch (src/widget.rs, src/widget/pod.rs) -/

inductive Keypress where
  | Escape
  | Enter
  | CursorUp
  | CursorDown
  | CursorLeft
  | CursorRight
  | Backspace
  | Printable (text : String)
deriving DecidableEq, Repr

inductive Event where
  | Keypress (key : Keypress)
  | Resize
deriving DecidableEq, Repr

inductive Broadcast where
  | Ignored
  | Consumed
  | Exited
deriving DecidableEq, Repr

/-- The filter overlay `Command` (src/widget/pod.rs): a one-line text buffer
with a `u16` cursor. -/
structure Command where
  content : String
  pos : Nat
deriving DecidableEq, Repr

/-- `Command::new`. -/
def Command.new : Command := ⟨"", 0⟩

/-- `impl Dispatch for Command` (src/widget/pod.rs).  Byte positions are
character positions in the ASCII model; `u16` saturation and the
`usize → u16` cast are explicit. -/
def Command.dispatch (c : Command) (event : Event) : Command × Broadcast :=
  match event with
  | .Keypress .Escape => (c, .Exited)
  | .Keypress (.Printable x) =>
    ({ content := String.mk (c.content.data.take c.pos ++ x.data ++ c.content.data.drop c.pos),
       pos := min (c.pos + 1) 65535 }, .Consumed)
  | .Keypress .Backspace =>
    if c.content = "" ∨ c.pos = 0 then (c, .Consumed)
    else
      ({ content := String.mk (c.content.data.take (c.pos - 1) ++ c.content.data.drop c.pos),
         pos := c.pos - 1 }, .Consumed)
  | .Keypress .CursorLeft => ({ c with pos := c.pos - 1 }, .Consumed)
  | .Keypress .CursorRight =>
    ({ c with pos := min (min (c.pos + 1) 65535) (c.content.data.length % 65536) }, .Consumed)
  | _ => (c, .Ignored)

/-- Modelled from the spec: the tabbed detail sub-view (`widget/tabs.rs` is
absent from `src/`) — an ordered sequence of tabs, left/right keys move the
active tab, everything else is offered to the active tab's content, whose
default dispatch ignores it. -/
structure TabbedView where
  idx : Nat
  count : Nat
deriving DecidableEq, Repr

/-- Modelled from the spec: `TabbedView` dispatch (see `TabbedView`). -/
def TabbedView.dispatch (v : TabbedView) (event : Event) : TabbedView × Broadcast :=
  match event with
  | .Keypress .CursorLeft => ({ v with idx := v.idx - 1 }, .Consumed)
  | .Keypress .CursorRight => ({ v with idx := min (v.idx + 1) (v.count - 1) }, .Consumed)
  | _ => (v, .Ignored)

/-- The detail view (src/widget/pod.rs): the selected pod plus a tabbed
sub-view over Overview and Logs. -/
structure Detail where
  pod : Pod
  view : TabbedView
deriving DecidableEq, Repr

/-- `Detail::new`: two tabs, the first active. -/
def Detail.new (p : Pod) : Detail := ⟨p, ⟨0, 2⟩⟩

/-- `impl Dispatch for Detail` (src/widget/pod.rs): forward to the tabbed
view first; a `Consumed` result short-circuits; otherwise Escape exits. -/
def Detail.dispatch (d : Detail) (event : Event) : Detail × Broadcast :=
  let r := d.view.dispatch event
  match r.2 with
  | .Consumed => ({ d with view := r.1 }, .Consumed)
  | _ =>
    match event with
    | .Keypress .Escape => ({ d with view := r.1 }, .Exited)
    | _ => ({ d with view := r.1 }, .Ignored)

/-- The pod list view `PodTable` (src/widget/pod.rs).  `pods` is the Store's
current state (`Store::state()`, the sorted snapshot); `selected` is the
`TableState` selection. -/
structure PodTable where
  pods : List Pod
  selected : Option Nat
  cmd : Option Command
  detail : Option Detail
deriving DecidableEq, Repr

/-- `PodTable::items`: the visible pods after applying the filter overlay's
text, an empty filter keeping everything. -/
def PodTable.items (s : PodTable) : List Pod :=
  match s.cmd with
  | none => s.pods
  | some c =>
    s.pods.filter (fun pod => if c.content = "" then true else pod.matches c.content)

/-- `PodTable::scroll`: move the selection by one, saturating at zero and
clamped to the last visible item. -/
def PodTable.scroll (s : PodTable) (key : Keypress) : PodTable :=
  let current := s.selected.getD 0
  match key with
  | .CursorUp => { s with selected := some (min (current - 1) (s.items.length - 1)) }
  | .CursorDown => { s with selected := some (min (current + 1) (s.items.length - 1)) }
  | _ => s

/-- The selection revalidation at the top of `PodTable::list`, run on every
read of the list for rendering: pull the selection back to the last item
when it exceeds the visible length. -/
def PodTable.listRevalidate (s : PodTable) : PodTable :=
  let state := s.items
  if s.selected.getD 0 > state.length then
    { s with selected := some (state.length - 1) }
  else s

/-- `impl Dispatch for PodTable` (src/widget/pod.rs).  The two
`propagate!` uses (src/widget.rs) appear as the two child offers: a child's
`Exited` detaches the child and yields `Consumed`, any other non-`Ignored`
child result is returned as is, and only when every child ignores the event
are the table's own key bindings applied. -/
def PodTable.dispatch (s : PodTable) (event : Event) : PodTable × Broadcast :=
  match event with
  | .Resize => (s, .Ignored)
  | .Keypress key =>
    let cmdStep : Option (PodTable × Broadcast) :=
      match s.cmd with
      | none => none
      | some c =>
        let r := c.dispatch event
        match r.2 with
        | .Exited => some ({ s with cmd := none }, .Consumed)
        | .Consumed => some ({ s with cmd := some r.1 }, .Consumed)
        | .Ignored => none
    match cmdStep with
    | some out => out
    | none =>
      let detailStep : Option (PodTable × Broadcast) :=
        match s.detail with
        | none => none
        | some d =>
          let r := d.dispatch event
          match r.2 with
          | .Exited => some ({ s with detail := none }, .Consumed)
          | .Consumed => some ({ s with detail := some r.1 }, .Consumed)
          | .Ignored => none
      match detailStep with
      | some out => out
      | none =>
        match key with
        | .Escape => (s, .Exited)
        | .Enter =>
          ({ s with detail := (s.items.get? (s.selected.getD 0)).map Detail.new }, .Consumed)
        | .CursorUp => (s.scroll key, .Consumed)
        | .CursorDown => (s.scroll key, .Consumed)
        | .Printable x =>
          (if x = "/" then { s with cmd := some Command.new } else s, .Consumed)
        | _ => (s, .Ignored)

/-! ## Store snapshot ordering -/

/-- The order induced by `Compare for Arc<Pod>`: `cmp` does not say `gt`. -/
def podLE (p q : Pod) : Prop := Pod.cmp p q ≠ .gt

instance : DecidableRel podLE := fun p q => by
  unfold podLE; infer_instance

/-- Modelled from the spec: `Store::snapshot()` (`resources/store.rs` is
absent from `src/`) returns the cached pods sorted by the `Compare` impl. -/
def snapshot (pods : List Pod) : List Pod :=
  pods.insertionSort podLE

/-! ## Claim-side definitions

Definitions that follow the wording of the specification, to be compared
against the source-embedded functions above. -/

/-- The ascending (namespace, name) display order the spec promises for
`snapshot()` output: earlier namespace first (absent treated as `""`),
name deciding only between equal namespaces. -/
def specLE (p q : Pod) : Prop :=
  strCmp (p.namespace_.getD "").data (q.namespace_.getD "").data = .lt ∨
  (p.namespace_.getD "" = q.namespace_.getD "" ∧ strCmp p.name_any.data q.name_any.data ≠ .gt)

/-- Sum of every container's restart count (the spec's "restart summary"
total), zero when there are no per-container statuses. -/
def restartSum (p : Pod) : Int :=
  match p.status with
  | none => 0
  | some status =>
    match status.container_statuses with
    | none => 0
    | some containers => (containers.map (fun c => c.restart_count)).sum

/-- The recorded last-termination finish times of a container list. -/
def finishTimes (cs : List ContainerStatus) : List Int :=
  cs.filterMap (fun c =>
    (c.last_state.bind ContainerState.terminated).bind ContainerStateTerminated.finished_at)

/-- The recorded last-termination finish times of a pod's containers. -/
def podFinishTimes (p : Pod) : List Int :=
  match p.status with
  | none => []
  | some status =>
    match status.container_statuses with
    | none => []
    | some containers => finishTimes containers

/-- The restart-summary rendering the claim prescribes: just the sum when the
sum is zero and no container has ever terminated, else the sum followed by a
parenthesized age.  The age text is existentially quantified, which only
makes the claim easier to satisfy. -/
def specRestartsClaim (now : Int) (p : Pod) : Prop :=
  if restartSum p = 0 ∧ podFinishTimes p = [] then
    p.restarts now = toString (restartSum p)
  else
    ∃ age, p.restarts now = toString (restartSum p) ++ " (" ++ age ++ ")"

/-- The reason the claim says a container contributes to the derived phase:
every container currently waiting, or terminated with a reason, contributes
(a waiting container its waiting reason, else its terminated reason, else
`"unknown"`; a non-waiting container its terminated reason when present). -/
def claimC3Reason (c : ContainerStatus) : Option String :=
  match c.state with
  | none => none
  | some s =>
    match s.waiting with
    | some w =>
      some (w.reason.getD ((s.terminated.bind ContainerStateTerminated.reason).getD "unknown"))
    | none => s.terminated.bind ContainerStateTerminated.reason

/-- The phase derivation the claim prescribes: collect `claimC3Reason` over
all containers, join with `", "`, parse like the raw phase field; fall back
to the raw phase field when nothing was collected. -/
def specStatusC3 (p : Pod) : Phase :=
  match p.status with
  | none => Phase.fromOpt (some "")
  | some status =>
    match status.container_statuses with
    | none => Phase.fromOpt status.phase
    | some containers =>
      let reasons := containers.filterMap claimC3Reason
      if reasons.isEmpty then Phase.fromOpt status.phase
      else Phase.fromOpt (some (String.intercalate ", " reasons))

/-! ## Concrete fixtures -/

/-- A pod with a name and a namespace and no status. -/
def mkPod (ns name : String) : Pod := ⟨⟨some name, some ns⟩, none⟩

def pods5 : List Pod :=
  [mkPod "d" "abc1", mkPod "d" "xabcy", mkPod "d" "foo", mkPod "d" "bar", mkPod "d" "baz"]

/-- Five pods, filter "abc" (2 visible), selection 2. -/
def tableC1 : PodTable := ⟨pods5, some 2, some ⟨"abc", 3⟩, none⟩

/-- Five pods, filter "abc" (2 visible), selection 4: the spec's example. -/
def tableC1b : PodTable := ⟨pods5, some 4, some ⟨"abc", 3⟩, none⟩

/-- Five pods, empty filter. -/
def tableC7all : PodTable := ⟨pods5, some 0, some ⟨"", 0⟩, none⟩

/-- Five pods, filter "abc". -/
def tableC7abc : PodTable := ⟨pods5, some 0, some ⟨"abc", 3⟩, none⟩

/-- A table with an open filter overlay holding "ab". -/
def tableC4 : PodTable := ⟨pods5, some 0, some ⟨"ab", 1⟩, none⟩

def podNoStatus : Pod := mkPod "d" "p"

def podRunningNoCS : Pod := ⟨⟨some "p", some "d"⟩, some ⟨some "Running", none, none⟩⟩

/-- Three containers with ready flags [true, false, true]. -/
def podReady3 : Pod :=
  ⟨⟨some "p", none⟩, some ⟨some "Running",
    some [⟨"a", true, 0, none, none⟩, ⟨"b", false, 0, none, none⟩, ⟨"c", true, 0, none, none⟩],
    none⟩⟩

/-- One container with 5 restarts and no recorded termination. -/
def podRestartsNoTerm : Pod :=
  ⟨⟨some "p", none⟩, some ⟨some "Running", some [⟨"c", true, 5, none, none⟩], none⟩⟩

/-- Restart counts [2, 3, 0]; one container's last termination finished at 100. -/
def podRestartsTerm : Pod :=
  ⟨⟨some "p", none⟩, some ⟨some "Running",
    some [⟨"a", true, 2, none, some ⟨none, some ⟨none, some 100⟩⟩⟩,
          ⟨"b", true, 3, none, none⟩,
          ⟨"c", true, 0, none, none⟩],
    none⟩⟩

/-- One container terminated with reason "Error" (not waiting), raw phase "Running". -/
def podTermReason : Pod :=
  ⟨⟨some "p", none⟩, some ⟨some "Running",
    some [⟨"c", false, 0, some ⟨none, some ⟨some "Error", none⟩⟩, none⟩], none⟩⟩

/-- One container waiting with reason "ImagePullBackOff". -/
def podWaitingIPB : Pod :=
  ⟨⟨some "p", none⟩, some ⟨some "Pending",
    some [⟨"c", false, 0, some ⟨some ⟨some "ImagePullBackOff"⟩, none⟩, none⟩], none⟩⟩

def podIpGood : Pod := ⟨⟨some "p", none⟩, some ⟨none, none, some "10.1.2.3"⟩⟩

def podIpBad : Pod := ⟨⟨some "p", none⟩, some ⟨none, none, some "not-an-ip"⟩⟩

/-- Pods in scrambled order, one with no namespace at all. -/
def podsC8 : List Pod := [mkPod "b" "x", ⟨⟨some "z", none⟩, none⟩, mkPod "a" "y"]

/-! ## Helper lemmas -/

theorem strData_inj {s t : String} (h : s.data = t.data) : s = t := by
  cases s; cases t; exact congrArg String.mk h

theorem data_ne_nil_of_ne_empty {x : String} (h : x ≠ "") : x.data ≠ [] := by
  intro hd
  exact h (strData_inj (by simpa using hd))

theorem foldl_add_eq {α : Type} (f : α → Int) :
    ∀ (l : List α) (x : Int), l.foldl (fun a c => a + f c) x = x + (l.map f).sum := by
  intro l
  induction l with
  | nil => simp
  | cons c cs ih =>
    intro x
    simp only [List.foldl_cons, List.map_cons, List.sum_cons, ih]
    ring

theorem sum_if_eq_countP (cs : List ContainerStatus) :
    ((cs.map (fun c => if c.ready then (1 : Int) else 0)).sum) =
      (cs.countP (fun c => c.ready) : Int) := by
  induction cs with
  | nil => simp
  | cons c cs ih =>
    simp only [List.map_cons, List.sum_cons, ih, List.countP_cons]
    by_cases h : c.ready <;> simp [h] <;> push_cast <;> ring

theorem foldl_max_init (l : List Int) : ∀ (a b : Int), l.foldl max (max a b) = max a (l.foldl max b) := by
  induction l with
  | nil => intro a b; rfl
  | cons c cs ih =>
    intro a b
    simp only [List.foldl_cons, max_assoc, ih]

theorem le_foldl_max (l : List Int) : ∀ a : Int, a ≤ l.foldl max a := by
  induction l with
  | nil => intro a; simp
  | cons c cs ih =>
    intro a
    calc a ≤ max a c := le_max_left a c
    _ ≤ cs.foldl max (max a c) := ih (max a c)

theorem restartsRecFold (cs : List ContainerStatus) :
    ∀ a : Int,
      cs.foldl (fun a c =>
        match c.last_state with
        | none => a
        | some last_state =>
          match last_state.terminated with
          | none => a
          | some terminated =>
            match terminated.finished_at with
            | none => a
            | some finished => max a finished) a
      = (finishTimes cs).foldl max a := by
  induction cs with
  | nil => intro a; rfl
  | cons c cs ih =>
    intro a
    simp only [List.foldl_cons, finishTimes, List.filterMap_cons]
    cases hls : c.last_state with
    | none => simpa [hls, finishTimes] using ih a
    | some ls =>
      cases ht : ls.terminated with
      | none => simpa [hls, ht, finishTimes] using ih a
      | some t =>
        cases hf : t.finished_at with
        | none => simpa [hls, ht, hf, finishTimes] using ih a
        | some f => simpa [hls, ht, hf, finishTimes] using ih (max a f)

theorem waitingFilter_eq (c : ContainerStatus) :
    waitingFilter c = (c.state.bind ContainerState.waiting).isSome := by
  cases h : c.state with
  | none => simp [waitingFilter, h]
  | some s => simp [waitingFilter, h]

theorem strCmp_self : ∀ l : List Char, strCmp l l = .eq := by
  intro l
  induction l with
  | nil => rfl
  | cons a as ih => simp [strCmp, lt_irrefl, ih]

theorem strCmp_eq_iff : ∀ a b : List Char, strCmp a b = .eq ↔ a = b := by
  intro a
  induction a with
  | nil =>
    intro b
    cases b with
    | nil => simp [strCmp]
    | cons y ys => simp [strCmp]
  | cons x xs ih =>
    intro b
    cases b with
    | nil => simp [strCmp]
    | cons y ys =>
      by_cases h1 : x < y
      · rw [strCmp, if_pos h1]
        constructor
        · intro h; cases h
        · intro h
          injection h with h2 h3
          exact absurd h2 (ne_of_lt h1)
      · by_cases h2 : y < x
        · rw [strCmp, if_neg h1, if_pos h2]
          constructor
          · intro h; cases h
          · intro h
            injection h with h3 h4
            exact absurd h3.symm (ne_of_lt h2)
        · have hxy : x = y := le_antisymm (le_of_not_lt h2) (le_of_not_lt h1)
          rw [strCmp, if_neg h1, if_neg h2, ih ys]
          simp [hxy]

theorem strCmp_swap : ∀ a b : List Char, strCmp b a = (strCmp a b).swap := by
  intro a
  induction a with
  | nil =>
    intro b
    cases b with
    | nil => rfl
    | cons y ys => rfl
  | cons x xs ih =>
    intro b
    cases b with
    | nil => rfl
    | cons y ys =>
      simp only [strCmp]
      by_cases h1 : x < y
      · simp [h1, lt_asymm h1, Ordering.swap]
      · by_cases h2 : y < x
        · simp [h1, h2, Ordering.swap]
        · simp [h1, h2, ih ys]

theorem strCmp_lt_trans :
    ∀ a b c : List Char, strCmp a b = .lt → strCmp b c = .lt → strCmp a c = .lt := by
  intro a
  induction a with
  | nil =>
    intro b c h1 h2
    cases c with
    | nil =>
      cases b with
      | nil => cases h1
      | cons y ys => cases h2
    | cons z zs => rfl
  | cons x xs ih =>
    intro b c h1 h2
    cases b with
    | nil => cases h1
    | cons y ys =>
      cases c with
      | nil => cases h2
      | cons z zs =>
        by_cases hxy : x < y
        · by_cases hyz : y < z
          · rw [strCmp, if_pos (lt_trans hxy hyz)]
          · by_cases hzy : z < y
            · rw [strCmp, if_neg hyz, if_pos hzy] at h2
              cases h2
            · have hyz' : y = z := le_antisymm (le_of_not_lt hzy) (le_of_not_lt hyz)
              rw [strCmp, if_pos (hyz' ▸ hxy)]
        · by_cases hyx : y < x
          · rw [strCmp, if_neg hxy, if_pos hyx] at h1
            cases h1
          · have hxy' : x = y := le_antisymm (le_of_not_lt hyx) (le_of_not_lt hxy)
            subst hxy'
            rw [strCmp, if_neg hxy, if_neg hyx] at h1
            by_cases hxz : x < z
            · rw [strCmp, if_pos hxz]
            · by_cases hzx : z < x
              · rw [strCmp, if_neg hxz, if_pos hzx] at h2
                cases h2
              · have hxz' : x = z := le_antisymm (le_of_not_lt hzx) (le_of_not_lt hxz)
                subst hxz'
                rw [strCmp, if_neg hxz, if_neg hzx] at h2 ⊢
                exact ih ys zs h1 h2

theorem strCmp_le_trans (a b c : List Char) (h1 : strCmp a b ≠ .gt) (h2 : strCmp b c ≠ .gt) :
    strCmp a c ≠ .gt := by
  have h1' : strCmp a b = .lt ∨ a = b := by
    cases h : strCmp a b with
    | lt => exact Or.inl rfl
    | eq => exact Or.inr ((strCmp_eq_iff a b).1 h)
    | gt => exact absurd h h1
  have h2' : strCmp b c = .lt ∨ b = c := by
    cases h : strCmp b c with
    | lt => exact Or.inl rfl
    | eq => exact Or.inr ((strCmp_eq_iff b c).1 h)
    | gt => exact absurd h h2
  rcases h1' with hl | he
  · rcases h2' with hl2 | he2
    · rw [strCmp_lt_trans a b c hl hl2]
      simp
    · rw [← he2, hl]
      simp
  · rcases h2' with hl2 | he2
    · rw [he, hl2]
      simp
    · rw [he, he2, strCmp_self]
      simp

theorem podCmp_swap (p q : Pod) : Pod.cmp q p = (Pod.cmp p q).swap := by
  simp only [Pod.cmp]
  rw [strCmp_swap ((p.namespace_.getD "").data) ((q.namespace_.getD "").data)]
  rw [strCmp_swap (p.name_any.data) (q.name_any.data)]
  cases h : strCmp (p.namespace_.getD "").data (q.namespace_.getD "").data with
  | lt => simp [Ordering.swap]
  | eq => simp [Ordering.swap]
  | gt => simp [Ordering.swap]

theorem podLE_total (p q : Pod) : podLE p q ∨ podLE q p := by
  unfold podLE
  cases h : Pod.cmp p q with
  | gt =>
    right
    rw [podCmp_swap, h]
    simp [Ordering.swap]
  | lt => left; simp [h]
  | eq => left; simp [h]

theorem podLE_trans (p q r : Pod) (h1 : podLE p q) (h2 : podLE q r) : podLE p r := by
  simp only [podLE, Pod.cmp] at h1 h2 ⊢
  cases c1 : strCmp (p.namespace_.getD "").data (q.namespace_.getD "").data with
  | gt => rw [c1] at h1; simp at h1
  | lt =>
    cases c2 : strCmp (q.namespace_.getD "").data (r.namespace_.getD "").data with
    | gt => rw [c2] at h2; simp at h2
    | lt =>
      have c3 := strCmp_lt_trans _ _ _ c1 c2
      simp [c3]
    | eq =>
      have hqr : (q.namespace_.getD "").data = (r.namespace_.getD "").data :=
        (strCmp_eq_iff _ _).1 c2
      have c3 : strCmp (p.namespace_.getD "").data (r.namespace_.getD "").data = .lt := by
        rw [← hqr]; exact c1
      simp [c3]
  | eq =>
    have hpq : (p.namespace_.getD "").data = (q.namespace_.getD "").data :=
      (strCmp_eq_iff _ _).1 c1
    rw [c1] at h1
    simp only [ne_eq, not_true_eq_false, if_false, reduceCtorEq] at h1
    cases c2 : strCmp (q.namespace_.getD "").data (r.namespace_.getD "").data with
    | gt => rw [c2] at h2; simp at h2
    | lt =>
      have c3 : strCmp (p.namespace_.getD "").data (r.namespace_.getD "").data = .lt := by
        rw [hpq]; exact c2
      simp [c3]
    | eq =>
      have hqr : (q.namespace_.getD "").data = (r.namespace_.getD "").data :=
        (strCmp_eq_iff _ _).1 c2
      rw [c2] at h2
      simp only [ne_eq, not_true_eq_false, if_false, reduceCtorEq] at h2
      have c3 : strCmp (p.namespace_.getD "").data (r.namespace_.getD "").data = .eq := by
        rw [hpq, hqr, strCmp_self]
      simp only [c3, ne_eq, not_true_eq_false, if_false]
      exact strCmp_le_trans _ _ _ h1 h2

theorem podLE_iff_specLE (p q : Pod) : podLE p q ↔ specLE p q := by
  simp only [podLE, Pod.cmp, specLE]
  cases h : strCmp (p.namespace_.getD "").data (q.namespace_.getD "").data with
  | lt => simp [h]
  | eq =>
    have hns : p.namespace_.getD "" = q.namespace_.getD "" :=
      strData_inj ((strCmp_eq_iff _ _).1 h)
    simp [h, hns]
  | gt =>
    have hns : ¬ p.namespace_.getD "" = q.namespace_.getD "" := by
      intro he
      rw [he, strCmp_self] at h
      cases h
    simp [h, hns]

/-- Claim C8: `snapshot()` output is always sorted ascending by
(namespace, name): the pod comparison compares namespaces first (an absent
namespace treated as the empty string) and compares names only when the
namespaces are equal. -/
theorem claim_C8 (l : List Pod) (p q : Pod) :
    (snapshot l).Sorted specLE ∧
    (p.namespace_.getD "" = q.namespace_.getD "" →
      Pod.cmp p q = strCmp p.name_any.data q.name_any.data) ∧
    (p.namespace_.getD "" ≠ q.namespace_.getD "" →
      Pod.cmp p q = strCmp (p.namespace_.getD "").data (q.namespace_.getD "").data) := by
  refine ⟨?_, ?_, ?_⟩
  · haveI : IsTotal Pod podLE := ⟨podLE_total⟩
    haveI : IsTrans Pod podLE := ⟨podLE_trans⟩
    exact (List.sorted_insertionSort podLE l).imp (fun h => (podLE_iff_specLE _ _).1 h)
  · intro h
    have hd : (p.namespace_.getD "").data = (q.namespace_.getD "").data := by rw [h]
    have he : strCmp (p.namespace_.getD "").data (q.namespace_.getD "").data = .eq :=
      (strCmp_eq_iff _ _).2 hd
    simp [Pod.cmp, he]
  · intro h
    have hne : strCmp (p.namespace_.getD "").data (q.namespace_.getD "").data ≠ .eq := by
      intro he
      exact h (strData_inj ((strCmp_eq_iff _ _).1 he))
    simp [Pod.cmp, hne]

/-- Witness for C8 at a concrete scrambled pod list (one pod lacking a
namespace) and concrete pod pairs. -/
theorem claim_C8_witness :
    (snapshot podsC8).Sorted specLE ∧
    Pod.cmp (mkPod "a" "x") (mkPod "a" "y") =
      strCmp ("x" : String).data ("y" : String).data ∧
    Pod.cmp (mkPod "a" "x") (mkPod "b" "a") =
      strCmp ("a" : String).data ("b" : String).data :=
  ⟨(claim_C8 podsC8 podNoStatus podNoStatus).1,
   (claim_C8 podsC8 (mkPod "a" "x") (mkPod "a" "y")).2.1 (by decide),
   (claim_C8 podsC8 (mkPod "a" "x") (mkPod "b" "a")).2.2 (by decide)⟩

/-- Claim C5: a pod with no status derives phase `Unknown("")`; with a status
but no per-container statuses the raw phase field is mapped, "Pending",
"Running" and "Succeeded" to their variants and anything unrecognized to
`Unknown(<raw text>)`. -/
theorem claim_C5 (p : Pod) (st : PodStatus) (s : String) :
    (p.status = none → p.statusPhase = .Unknown "") ∧
    (p.status = some st → st.container_statuses = none →
      p.statusPhase = Phase.fromOpt st.phase) ∧
    (Phase.fromOpt (some "Pending") = .Pending ∧
      Phase.fromOpt (some "Running") = .Running ∧
      Phase.fromOpt (some "Succeeded") = .Succeeded) ∧
    (s ≠ "Pending" → s ≠ "Running" → s ≠ "Succeeded" →
      Phase.fromOpt (some s) = .Unknown s) := by
  refine ⟨?_, ?_, by decide, ?_⟩
  · intro h
    simp [Pod.statusPhase, h]
    decide
  · intro h1 h2
    simp [Pod.statusPhase, h1, h2]
  · intro h1 h2 h3
    simp [Phase.fromOpt, h1, h2, h3]

/-- Witness for C5: the spec's three phase-derivation examples. -/
theorem claim_C5_witness :
    podNoStatus.statusPhase = .Unknown "" ∧
    podRunningNoCS.statusPhase = Phase.fromOpt (some "Running") ∧
    Phase.fromOpt (some "ImagePullBackOff") = .Unknown "ImagePullBackOff" :=
  ⟨(claim_C5 podNoStatus ⟨none, none, none⟩ "x").1 rfl,
   (claim_C5 podRunningNoCS ⟨some "Running", none, none⟩ "x").2.1 rfl rfl,
   (claim_C5 podNoStatus ⟨none, none, none⟩ "ImagePullBackOff").2.2.2
     (by decide) (by decide) (by decide)⟩

/-- Claim C6: the readiness string is "R/T", R the count of ready containers
and T the container count; "0/0" when status is absent. -/
theorem claim_C6 (p : Pod) (st : PodStatus) (cs : List ContainerStatus) :
    (p.status = none → p.ready = "0/0") ∧
    (p.status = some st → st.container_statuses = some cs →
      p.ready = s!"{cs.countP (fun c => c.ready)}/{cs.length}") := by
  constructor
  · intro h
    simp [Pod.ready, h]
  · intro h1 h2
    simp only [Pod.ready, h1, h2]
    have hc : cs.foldl (fun a c => a + (if c.ready then 1 else 0)) (0 : Int) =
        (cs.countP (fun c => c.ready) : Int) := by
      rw [foldl_add_eq (fun c => if c.ready then (1 : Int) else 0) cs 0]
      simp [sum_if_eq_countP]
    rw [hc]
    rfl

/-- Witness for C6: ready flags [true, false, true] render "2/3"; a pod with
no status renders "0/0". -/
theorem claim_C6_witness : podReady3.ready = "2/3" ∧ podNoStatus.ready = "0/0" :=
  ⟨((claim_C6 podReady3
      ⟨some "Running",
        some [⟨"a", true, 0, none, none⟩, ⟨"b", false, 0, none, none⟩,
          ⟨"c", true, 0, none, none⟩], none⟩
      [⟨"a", true, 0, none, none⟩, ⟨"b", false, 0, none, none⟩,
        ⟨"c", true, 0, none, none⟩]).2 rfl rfl).trans (by decide),
   (claim_C6 podNoStatus ⟨none, none, none⟩ []).1 rfl⟩

/-- Claim C9: the derived IP is the parsed address when present and
parseable; a missing status, a missing address field or a malformed address
all yield `none`, never an error (the embedding is total into `Option`). -/
theorem claim_C9 (p : Pod) (st : PodStatus) (s : String) (a : IpAddr) :
    (p.status = none → p.ip = none) ∧
    (p.status = some st → st.pod_ip = none → p.ip = none) ∧
    (p.status = some st → st.pod_ip = some s → parseIp s = none → p.ip = none) ∧
    (p.status = some st → st.pod_ip = some s → parseIp s = some a → p.ip = some a) ∧
    parseIp "not-an-ip" = none ∧ parseIp "300.1.2.3" = none := by
  refine ⟨?_, ?_, ?_, ?_, by decide, by decide⟩
  · intro h
    simp [Pod.ip, h]
  · intro h1 h2
    simp [Pod.ip, h1, h2]
  · intro h1 h2 h3
    simp [Pod.ip, h1, h2, h3]
  · intro h1 h2 h3
    simp [Pod.ip, h1, h2, h3]

/-- Witness for C9: a well-formed and a malformed concrete address. -/
theorem claim_C9_witness : podIpGood.ip = some ⟨10, 1, 2, 3⟩ ∧ podIpBad.ip = none :=
  ⟨(claim_C9 podIpGood ⟨none, none, some "10.1.2.3"⟩ "10.1.2.3" ⟨10, 1, 2, 3⟩).2.2.2.1
     rfl rfl (by decide),
   (claim_C9 podIpBad ⟨none, none, some "not-an-ip"⟩ "not-an-ip" ⟨0, 0, 0, 0⟩).2.2.1
     rfl rfl (by decide)⟩

/-- Claim C7: the empty filter keeps every pod in original order; a
non-empty filter keeps exactly the pods whose name contains the filter text,
case-sensitively. -/
theorem claim_C7 (s : PodTable) (c : Command) :
    (s.cmd = some c → c.content = "" → s.items = s.pods) ∧
    (s.cmd = some c → c.content ≠ "" →
      s.items = s.pods.filter (fun p => strContains p.name_any c.content)) ∧
    (strContains "xAbCy" "AbC" = true ∧ strContains "xabcy" "AbC" = false) := by
  refine ⟨?_, ?_, by decide⟩
  · intro h1 h2
    simp [PodTable.items, h1, h2]
  · intro h1 h2
    simp only [PodTable.items, h1]
    have hp : (fun pod : Pod => if c.content = "" then true else pod.matches c.content) =
        (fun pod : Pod => strContains pod.name_any c.content) := by
      funext pod
      simp [h2, Pod.matches]
    rw [hp]

/-- Witness for C7: the five-pod list of the spec example, with filter ""
(all five kept, order unchanged) and filter "abc" (exactly the two matching
names kept). -/
theorem claim_C7_witness :
    tableC7all.items = pods5 ∧
    tableC7abc.items = pods5.filter (fun p => strContains p.name_any "abc") ∧
    tableC7abc.items.map Pod.name_any = ["abc1", "xabcy"] :=
  ⟨(claim_C7 tableC7all ⟨"", 0⟩).1 rfl rfl,
   (claim_C7 tableC7abc ⟨"abc", 3⟩).2.1 rfl (by decide),
   by
     rw [(claim_C7 tableC7abc ⟨"abc", 3⟩).2.1 rfl (by decide)]
     decide⟩

/-- When every element of `l` is a real timestamp (later than the sentinel),
the sentinel-seeded max fold computes `l.max?` and stays above the sentinel. -/
theorem foldl_max_of_max? (l : List Int) (hv : ∀ x ∈ l, minUtc < x) :
    ∀ t, l.max? = some t → l.foldl max minUtc = t ∧ minUtc < t := by
  cases l with
  | nil => intro t ht; cases ht
  | cons t0 ts =>
    intro t ht
    have hm : (t0 :: ts).max? = some (ts.foldl max t0) := rfl
    rw [hm] at ht
    injection ht with ht
    have ht0 : minUtc < t0 := hv t0 (List.mem_cons_self t0 ts)
    have hge : t0 ≤ ts.foldl max t0 := le_foldl_max ts t0
    constructor
    · rw [List.foldl_cons, max_eq_right (le_of_lt ht0), ← ht]
    · omega

/-- Counterexample to claim C2 as stated: one container with 5 restarts and
no recorded termination renders "5", while the claim's conditional ("just
the sum" only when the sum is zero AND nothing ever terminated, otherwise
sum plus parenthesized age) demands a parenthesized rendering. -/
theorem claim_C2_cex :
    podRestartsNoTerm.restarts 0 = "5" ∧ ¬ specRestartsClaim 0 podRestartsNoTerm := by
  constructor
  · decide
  · intro h
    have h5 : restartSum podRestartsNoTerm = 5 := by decide
    unfold specRestartsClaim at h
    rw [if_neg (by simp [h5])] at h
    obtain ⟨age, hage⟩ := h
    rw [h5, show podRestartsNoTerm.restarts 0 = "5" from by decide] at hage
    have hlen := congrArg String.length hage
    have l1 : ("5" : String).length = 1 := rfl
    have l2 : (toString (5 : Int)).length = 1 := rfl
    have l3 : (" (" : String).length = 2 := rfl
    have l4 : (")" : String).length = 1 := rfl
    rw [String.length_append, String.length_append, String.length_append,
      l1, l2, l3, l4] at hlen
    omega

/-- Claim C2 as amended: the restart summary renders just the sum exactly
when no container has a recorded last-termination finish time (even when the
sum is nonzero); otherwise it renders the sum followed by the age of the
most recent finish time.  (`minUtc < t` says the recorded times are real
timestamps, which all `chrono` datetimes after the sentinel are.) -/
theorem claim_C2 (now : Int) (p : Pod) (st : PodStatus) (cs : List ContainerStatus) :
    (p.status = none → p.restarts now = "0") ∧
    (p.status = some st → st.container_statuses = none → p.restarts now = "0") ∧
    (p.status = some st → st.container_statuses = some cs →
      (∀ t ∈ finishTimes cs, minUtc < t) →
      ((finishTimes cs = [] →
         p.restarts now = toString ((cs.map (fun c => c.restart_count)).sum)) ∧
       (∀ t, (finishTimes cs).max? = some t →
         p.restarts now = s!"{(cs.map (fun c => c.restart_count)).sum} ({toAge (now - t)})"))) := by
  refine ⟨?_, ?_, ?_⟩
  · intro h
    simp [Pod.restarts, h]
  · intro h1 h2
    simp [Pod.restarts, h1, h2]
  · intro h1 h2 hv
    simp only [Pod.restarts, h1, h2]
    rw [restartsRecFold cs minUtc]
    rw [foldl_add_eq (fun c => c.restart_count) cs 0]
    simp only [zero_add]
    constructor
    · intro h
      rw [h]
      simp
    · intro t ht
      obtain ⟨he, hlt⟩ := foldl_max_of_max? (finishTimes cs) hv t ht
      rw [he, if_neg (by omega)]

/-- Witness for C2 as amended: restart counts [2, 3, 0] with one termination
finished at 100, read at 150, render "5 (50s)"; a pod with no status renders
"0". -/
theorem claim_C2_witness :
    podRestartsTerm.restarts 150 = "5 (50s)" ∧ podNoStatus.restarts 0 = "0" := by
  constructor
  · have h := ((claim_C2 150 podRestartsTerm
      ⟨some "Running",
        some [⟨"a", true, 2, none, some ⟨none, some ⟨none, some 100⟩⟩⟩,
          ⟨"b", true, 3, none, none⟩, ⟨"c", true, 0, none, none⟩], none⟩
      [⟨"a", true, 2, none, some ⟨none, some ⟨none, some 100⟩⟩⟩,
        ⟨"b", true, 3, none, none⟩, ⟨"c", true, 0, none, none⟩]).2.2 rfl rfl
      (by decide)).2 100 (by decide)
    exact h.trans (by decide)
  · exact (claim_C2 0 podNoStatus ⟨none, none, none⟩ []).1 rfl

/-- Counterexample to claim C3 as stated: a container terminated with reason
"Error" but not waiting is, per the claim, collected (yielding
`Unknown("Error")`), but the code's filter only admits waiting containers,
so it falls back to the raw phase and yields `Running`. -/
theorem claim_C3_cex :
    podTermReason.statusPhase = .Running ∧
    specStatusC3 podTermReason = .Unknown "Error" ∧
    podTermReason.statusPhase ≠ specStatusC3 podTermReason :=
  ⟨by decide, by decide, by decide⟩

/-- Claim C3 as amended: only containers currently *waiting* are collected;
each contributes its waiting reason, else its terminated reason, else
"unknown".  When any are collected they are joined with ", " and parsed like
the raw phase field; when none are, the raw phase field is used. -/
theorem claim_C3 (p : Pod) (st : PodStatus) (cs : List ContainerStatus) :
    p.status = some st → st.container_statuses = some cs →
    ((cs.filter (fun c => (c.state.bind ContainerState.waiting).isSome)).map containerReason = [] →
      p.statusPhase = Phase.fromOpt st.phase) ∧
    ((cs.filter (fun c => (c.state.bind ContainerState.waiting).isSome)).map containerReason ≠ [] →
      p.statusPhase = Phase.fromOpt (some (String.intercalate ", "
        ((cs.filter (fun c => (c.state.bind ContainerState.waiting).isSome)).map containerReason)))) := by
  intro h1 h2
  have hfe : cs.filter waitingFilter =
      cs.filter (fun c => (c.state.bind ContainerState.waiting).isSome) := by
    apply List.filter_congr
    intro c _
    rw [waitingFilter_eq]
  constructor
  · intro h
    simp only [Pod.statusPhase, h1, h2]
    rw [hfe, h]
    simp
  · intro h
    simp only [Pod.statusPhase, h1, h2]
    rw [hfe]
    have hb : ((cs.filter (fun c => (c.state.bind ContainerState.waiting).isSome)).map
        containerReason).isEmpty = false := by
      cases hl : (cs.filter (fun c => (c.state.bind ContainerState.waiting).isSome)).map
          containerReason with
      | nil => exact absurd hl h
      | cons x xs => rfl
    rw [hb]
    simp

/-- Witness for C3 as amended: one container waiting with reason
"ImagePullBackOff" derives `Unknown("ImagePullBackOff")` (the spec's own
example, which the amendment preserves). -/
theorem claim_C3_witness : podWaitingIPB.statusPhase = .Unknown "ImagePullBackOff" := by
  have h := ((claim_C3 podWaitingIPB
    ⟨some "Pending",
      some [⟨"c", false, 0, some ⟨some ⟨some "ImagePullBackOff"⟩, none⟩, none⟩], none⟩
    [⟨"c", false, 0, some ⟨some ⟨some "ImagePullBackOff"⟩, none⟩, none⟩]) rfl rfl).2
    (by decide)
  exact h.trans (by decide)

/-- Claim C1, evaluated at the failing input: 5 pods filtered down to 2
visible items.  The spec's own example holds (selection 4 is pulled back to
1 on the next read), but selection 2 — equal to the visible count — survives
revalidation (the guard uses `> len`, not `≥ len`), violating the
"always clamped to [0, visible_item_count − 1]" invariant. -/
theorem claim_C1 :
    tableC1.items.length = 2 ∧
    tableC1.listRevalidate.selected = some 2 ∧
    2 > tableC1.items.length - 1 ∧
    tableC1b.listRevalidate.selected = some 1 := by
  decide

theorem strLength_data (s : String) : s.length = s.data.length := by
  cases s
  rfl

/-- Counterexample to claim C10 as stated: inserting the two-character
Printable text "ab" at cursor 0 advances the cursor by one, to 1, not past
the inserted text (which would be 2). -/
theorem claim_C10_cex :
    (Command.dispatch ⟨"", 0⟩ (.Keypress (.Printable "ab"))).1 = ⟨"ab", 1⟩ ∧
    (Command.dispatch ⟨"", 0⟩ (.Keypress (.Printable "ab"))).1.pos ≠ 0 + ("ab" : String).length := by
  decide

/-- Claim C10 as amended: dispatch preserves cursor ≤ content length (for
Printable text only when it is non-empty); insertion advances the cursor by
exactly one position (hence past the inserted text only when it is a single
character); Backspace with cursor 0 or empty content leaves the buffer
unchanged and still returns Consumed; CursorRight never moves the cursor
past the content length and leaves the content unchanged. -/
theorem claim_C10 (c : Command) (ev : Event) (x : String) :
    (c.pos ≤ c.content.length →
      (match ev with | .Keypress (.Printable y) => y ≠ "" | _ => True) →
      (c.dispatch ev).1.pos ≤ (c.dispatch ev).1.content.length) ∧
    (x ≠ "" → c.pos ≤ c.content.length →
      (c.dispatch (.Keypress (.Printable x))).1.content.length = c.content.length + x.length ∧
      (c.dispatch (.Keypress (.Printable x))).1.pos = min (c.pos + 1) 65535 ∧
      (c.dispatch (.Keypress (.Printable x))).2 = .Consumed) ∧
    (c.content = "" ∨ c.pos = 0 → c.dispatch (.Keypress .Backspace) = (c, .Consumed)) ∧
    ((c.dispatch (.Keypress .CursorRight)).1.content = c.content ∧
      (c.dispatch (.Keypress .CursorRight)).1.pos ≤ c.content.length ∧
      (c.dispatch (.Keypress .CursorRight)).2 = .Consumed) := by
  refine ⟨?_, ?_, ?_, ?_⟩
  · intro hp hprint
    cases ev with
    | Resize => simpa [Command.dispatch] using hp
    | Keypress k =>
      cases k with
      | Escape => simpa [Command.dispatch] using hp
      | Enter => simpa [Command.dispatch] using hp
      | CursorUp => simpa [Command.dispatch] using hp
      | CursorDown => simpa [Command.dispatch] using hp
      | CursorLeft =>
        simp only [Command.dispatch]
        rw [strLength_data] at hp ⊢
        omega
      | CursorRight =>
        simp only [Command.dispatch]
        rw [strLength_data] at hp ⊢
        have hm := Nat.mod_le (c.content.data.length % 65536) 65536
        have hm2 := Nat.mod_le c.content.data.length 65536
        omega
      | Backspace =>
        simp only [Command.dispatch]
        by_cases hb : c.content = "" ∨ c.pos = 0
        · rw [if_pos hb]
          exact hp
        · rw [if_neg hb]
          rw [strLength_data] at hp ⊢
          simp only [List.length_append, List.length_take, List.length_drop]
          omega
      | Printable y =>
        have hy : y.data ≠ [] := data_ne_nil_of_ne_empty hprint
        have hy1 : 0 < y.data.length := List.length_pos.2 hy
        simp only [Command.dispatch]
        rw [strLength_data] at hp ⊢
        simp only [List.length_append, List.length_take, List.length_drop]
        omega
  · intro hx hp
    have hxd : x.data ≠ [] := data_ne_nil_of_ne_empty hx
    have hx1 : 0 < x.data.length := List.length_pos.2 hxd
    refine ⟨?_, rfl, rfl⟩
    simp only [Command.dispatch]
    rw [strLength_data, strLength_data, strLength_data] at *
    simp only [List.length_append, List.length_take, List.length_drop]
    omega
  · intro h
    simp only [Command.dispatch]
    rw [if_pos h]
  · refine ⟨rfl, ?_, rfl⟩
    simp only [Command.dispatch]
    rw [strLength_data]
    have hm2 := Nat.mod_le c.content.data.length 65536
    omega

/-- Witness for C10 as amended at concrete buffers: insertion into "abcd" at
cursor 2, Backspace on the empty buffer, CursorRight in "abcd". -/
theorem claim_C10_witness :
    (Command.dispatch ⟨"abcd", 2⟩ (.Keypress (.Printable "x"))).1.pos ≤
      (Command.dispatch ⟨"abcd", 2⟩ (.Keypress (.Printable "x"))).1.content.length ∧
    (Command.dispatch ⟨"abcd", 2⟩ (.Keypress (.Printable "x"))).1.content.length =
      ("abcd" : String).length + ("x" : String).length ∧
    Command.dispatch ⟨"", 0⟩ (.Keypress .Backspace) = (⟨"", 0⟩, .Consumed) ∧
    (Command.dispatch ⟨"abcd", 2⟩ (.Keypress .CursorRight)).1.pos ≤ ("abcd" : String).length :=
  ⟨(claim_C10 ⟨"abcd", 2⟩ (.Keypress (.Printable "x")) "x").1 (by decide) (by decide),
   ((claim_C10 ⟨"abcd", 2⟩ (.Keypress (.Printable "x")) "x").2.1 (by decide) (by decide)).1,
   (claim_C10 ⟨"", 0⟩ (.Keypress .Backspace) "x").2.2.1 (Or.inl rfl),
   (claim_C10 ⟨"abcd", 2⟩ (.Keypress .CursorRight) "x").2.2.2.2.1⟩

/-- Claim C4: Escape at a leaf (the filter overlay, which has no children)
returns Exited; a parent whose open child reports Exited detaches the child
and returns Consumed; and any non-Ignored child result short-circuits, so
the parent's own key bindings never run (the parent's state changes only at
the child slot). -/
theorem claim_C4 (c : Command) (s : PodTable) (k : Keypress) (c' : Command) (b : Broadcast) :
    (Command.dispatch c (.Keypress .Escape) = (c, .Exited)) ∧
    (s.cmd = some c → s.detail = none →
      PodTable.dispatch s (.Keypress .Escape) = ({ s with cmd := none }, .Consumed)) ∧
    (s.cmd = some c → Command.dispatch c (.Keypress k) = (c', b) → b ≠ .Ignored →
      PodTable.dispatch s (.Keypress k) =
        (if b = .Exited then { s with cmd := none } else { s with cmd := some c' },
          .Consumed)) := by
  refine ⟨rfl, ?_, ?_⟩
  · intro h1 _
    simp [PodTable.dispatch, h1, Command.dispatch]
  · intro h1 hd hb
    cases b with
    | Ignored => exact absurd rfl hb
    | Consumed => simp [PodTable.dispatch, h1, hd]
    | Exited => simp [PodTable.dispatch, h1, hd]

/-- Witness for C4: the overlay leaf exits on Escape; the pod table with the
overlay open detaches it on Escape and returns Consumed; a Consumed child
result short-circuits a Printable key that would otherwise hit the table's
own bindings. -/
theorem claim_C4_witness :
    Command.dispatch ⟨"ab", 1⟩ (.Keypress .Escape) = (⟨"ab", 1⟩, .Exited) ∧
    PodTable.dispatch tableC4 (.Keypress .Escape) = ({ tableC4 with cmd := none }, .Consumed) ∧
    PodTable.dispatch tableC4 (.Keypress (.Printable "c")) =
      ({ tableC4 with cmd := some ⟨"acb", 2⟩ }, .Consumed) := by
  refine ⟨(claim_C4 ⟨"ab", 1⟩ tableC4 .Escape ⟨"ab", 1⟩ .Ignored).1,
    (claim_C4 ⟨"ab", 1⟩ tableC4 .Escape ⟨"ab", 1⟩ .Ignored).2.1 rfl rfl, ?_⟩
  have h := (claim_C4 ⟨"ab", 1⟩ tableC4 (.Printable "c") ⟨"acb", 2⟩ .Consumed).2.2
    rfl (by decide) (by decide)
  exact h.trans (by decide)
